import Mathlib

/-!
Verification development for the Brohirim Dota statistics pipeline
(`app.py`): the paginated match fetcher, the match normalizer and the
multi-player aggregator.

Modelling conventions:
* Timestamps are integers (unix seconds); the cutoff datetime is modelled
  by the equivalent integer threshold, which is faithful because
  `datetime.fromtimestamp` is strictly monotone, so the comparison
  `fromtimestamp(ts) >= cutoff_date` is `cutoff ≤ ts`.
* Python numbers are embedded as `Nat`/`Int`/`ℚ`; `round(x, n)` is
  round-half-to-even on the rational value (`pyRound`), mirroring
  Python's `round` semantics.
* The remote GraphQL source is an oracle `Nat → ApiResponse` giving, per
  batch number, either a page of matches or one of the failure modes the
  code distinguishes (non-200 status, `errors` payload, raised
  exception).  A missing/empty match list is `ok []`.
* The fetcher additionally records ghost instrumentation (`requests`,
  `pages`) used only in specifications; the `matches` component is the
  value the Python function returns.
-/

/-- Round-half-to-even of a rational to an integer, as Python's `round`. -/
def pyRoundInt (q : ℚ) : ℤ :=
  if q - ⌊q⌋ < 1/2 then ⌊q⌋
  else if 1/2 < q - ⌊q⌋ then ⌊q⌋ + 1
  else if ⌊q⌋ % 2 = 0 then ⌊q⌋ else ⌊q⌋ + 1

/-- Python's `round(q, ndigits)` on a rational value. -/
def pyRound (q : ℚ) (ndigits : ℕ) : ℚ :=
  (pyRoundInt (q * 10 ^ ndigits) : ℚ) / 10 ^ ndigits

/-- Hero reference nested in a participant (`hero { displayName id }`). -/
structure Hero where
  displayName : String
  id : Nat
deriving DecidableEq, Repr

/-- One participant of a raw match, with the fields the GraphQL query
selects.  Optional fields model values that may be null/missing. -/
structure Participant where
  steamAccountId : Nat
  isVictory : Bool
  isRadiant : Bool
  imp : Int
  kills : Nat
  deaths : Nat
  assists : Nat
  level : Option Nat
  position : Option String
  lane : Option String
  hero : Option Hero
deriving DecidableEq, Repr

/-- A raw match as returned by the remote source. -/
structure RawMatch where
  id : Nat
  startDateTime : Int
  durationSeconds : Nat
  didRadiantWin : Bool
  players : List Participant
deriving DecidableEq, Repr

/-- A normalized record: one row of the merged table
(`processed_data.append({...})` in `process_matches`). -/
structure Record where
  player_name : String
  match_id : Nat
  match_date : Int
  duration_min : ℚ
  hero : String
  is_victory : Bool
  performance_score : Int
  kills : Nat
  deaths : Nat
  assists : Nat
  kda : ℚ
  level : Option Nat
  position : String
  role : String
  lane : String
  is_party : Bool
  party_with : Option String
  lane_partner : Option String
deriving DecidableEq, Repr

/-- The `PLAYERS` roster dictionary (insertion order preserved). -/
def PLAYERS : List (String × Nat) :=
  [("Andreas", 3336264), ("Magnus", 29391237), ("Casper", 143488868),
   ("Ahle", 4222575), ("Nicolai", 74973595)]

/-- `list(PLAYERS.keys())[list(PLAYERS.values()).index(sid)]`: the key at
the index of the first value equal to `sid`. -/
def idToName (sid : Nat) : String :=
  ((PLAYERS.find? (fun kv => kv.2 = sid)).map Prod.fst).getD ""

/-- `PLAYERS[name]` (callers only use keys of `PLAYERS`). -/
def playerId (name : String) : Nat :=
  ((PLAYERS.find? (fun kv => kv.1 = name)).map Prod.snd).getD 0

/-- The `position_map` dictionary. -/
def position_map : List (String × String) :=
  [("POSITION_1", "Carry (Pos 1)"), ("POSITION_2", "Mid (Pos 2)"),
   ("POSITION_3", "Offlane (Pos 3)"), ("POSITION_4", "Soft Support (Pos 4)"),
   ("POSITION_5", "Hard Support (Pos 5)")]

/-- The `lane_map` dictionary. -/
def lane_map : List (String × String) :=
  [("SAFE_LANE", "Safe Lane"), ("MID_LANE", "Mid Lane"),
   ("OFF_LANE", "Off Lane"), ("JUNGLE", "Jungle"), ("ROAMING", "Roaming")]

/-- `tbl.get(k, "Unknown")` where `k` may be `None`. -/
def lookupD (tbl : List (String × String)) (k : Option String) : String :=
  match k with
  | none => "Unknown"
  | some s => ((tbl.find? (fun kv => kv.1 = s)).map Prod.snd).getD "Unknown"

/-- `next((p for p in players if p["steamAccountId"] == steam_id), None)`. -/
def findOwner (m : RawMatch) (sid : Nat) : Option Participant :=
  m.players.find? (fun p => p.steamAccountId = sid)

/-- Roster teammates: participants on the owner's side, with a different
account id, whose id is in `all_steam_ids` (`brohirim_teammates`). -/
def rosterTeammates (m : RawMatch) (pd : Participant) (sid : Nat)
    (all_steam_ids : List Nat) : List Participant :=
  (m.players.filter
      (fun p => p.isRadiant = pd.isRadiant ∧ p.steamAccountId ≠ sid)).filter
    (fun t => t.steamAccountId ∈ all_steam_ids)

/-- `friend_names`: roster teammates resolved back to display names. -/
def friendNames (m : RawMatch) (pd : Participant) (sid : Nat)
    (all_steam_ids : List Nat) : List String :=
  (rosterTeammates m pd sid all_steam_ids).map (fun t => idToName t.steamAccountId)

/-- `same_lane_teammates`: roster teammates whose `lane` equals the
owner's `lane` while the owner's `lane` is not `None`. -/
def sameLaneTeammates (m : RawMatch) (pd : Participant) (sid : Nat)
    (all_steam_ids : List Nat) : List Participant :=
  (rosterTeammates m pd sid all_steam_ids).filter
    (fun t => t.lane = pd.lane ∧ pd.lane ≠ none)

/-- `lane_partner_names`. -/
def lanePartnerNames (m : RawMatch) (pd : Participant) (sid : Nat)
    (all_steam_ids : List Nat) : List String :=
  (sameLaneTeammates m pd sid all_steam_ids).map (fun t => idToName t.steamAccountId)

/-- `", ".join(names) if names else None`. -/
def joinNames (names : List String) : Option String :=
  if names.isEmpty then none else some (String.intercalate ", " names)

/-- The record built by the loop body of `process_matches` once the
owner participant `pd` has been located. -/
def recordOf (m : RawMatch) (pd : Participant) (sid : Nat)
    (player_name : String) (all_steam_ids : List Nat) : Record :=
  {
      player_name := player_name
      match_id := m.id
      match_date := m.startDateTime
      duration_min := pyRound ((m.durationSeconds : ℚ) / 60) 1
      hero := match pd.hero with
        | some h => h.displayName
        | none => "Unknown"
      is_victory := pd.isVictory
      performance_score := pd.imp
      kills := pd.kills
      deaths := pd.deaths
      assists := pd.assists
      kda := pyRound (((pd.kills : ℚ) + (pd.assists : ℚ)) / ((max pd.deaths 1 : ℕ) : ℚ)) 2
      level := pd.level
      position := match pd.position with
        | some s => if s.isEmpty then "Unknown" else s
        | none => "Unknown"
      role := lookupD position_map pd.position
      lane := lookupD lane_map pd.lane
      is_party := decide (0 < (rosterTeammates m pd sid all_steam_ids).length)
      party_with := joinNames (friendNames m pd sid all_steam_ids)
      lane_partner := joinNames (lanePartnerNames m pd sid all_steam_ids) }

/-- The body of the `for match in matches` loop of `process_matches`,
producing zero or one normalized record for one raw match (`continue`
when the owner is absent from the participant list). -/
def processMatch (m : RawMatch) (sid : Nat) (player_name : String)
    (all_steam_ids : List Nat) : Option Record :=
  match findOwner m sid with
  | none => none
  | some pd => some (recordOf m pd sid player_name all_steam_ids)

/-- `process_matches`: the loop over raw matches, skipping matches in
which the owner does not appear. -/
def process_matches (ms : List RawMatch) (sid : Nat) (player_name : String)
    (all_steam_ids : List Nat) : List Record :=
  ms.filterMap (fun m => processMatch m sid player_name all_steam_ids)

/-- Failure/response modes the fetch loop distinguishes per batch. -/
inductive ApiResponse where
  | ok (ms : List RawMatch)
  | httpError (status : Nat)
  | gqlErrors
  | exn
deriving DecidableEq, Repr

/-- Does this response make the fetch loop break on the error paths
(non-200 status, `errors` payload, raised exception)? -/
def ApiResponse.isFailure : ApiResponse → Bool
  | .ok _ => false
  | _ => true

/-- Result of `fetch_all_matches_for_player`: `all_matches` is the returned
value; `requests` (number of page requests issued) and `pages` (the
nonempty pages processed) are ghost instrumentation for specifications. -/
structure FetchResult where
  all_matches : List RawMatch
  requests : Nat
  pages : List (List RawMatch)
deriving DecidableEq, Repr

def batch_size : Nat := 100

def max_batches : Nat := 5

/-- The list-comprehension condition
`datetime.fromtimestamp(m["startDateTime"]) >= cutoff_date`. -/
def inWindow (cutoff : Int) (m : RawMatch) : Bool :=
  cutoff ≤ m.startDateTime

/-- `min(m["startDateTime"] for m in matches)` (callers ensure the list
is nonempty). -/
def oldestTime (ms : List RawMatch) : Int :=
  ((ms.map RawMatch.startDateTime).min?).getD 0

/-- The `for batch_num in range(max_batches)` loop of
`fetch_all_matches_for_player`.  `fuel` is the number of remaining
iterations, `b` the current batch number, `acc` the accumulated
`all_matches`, `reqs`/`ps` the ghost instrumentation. -/
def fetchGo (oracle : Nat → ApiResponse) (cutoff : Int) :
    Nat → Nat → List RawMatch → Nat → List (List RawMatch) → FetchResult
  | 0, _, acc, reqs, ps => ⟨acc, reqs, ps⟩
  | fuel + 1, b, acc, reqs, ps =>
    match oracle b with
    | .httpError _ => ⟨acc, reqs + 1, ps⟩
    | .gqlErrors => ⟨acc, reqs + 1, ps⟩
    | .exn => ⟨acc, reqs + 1, ps⟩
    | .ok ms =>
      if ms.isEmpty then ⟨acc, reqs + 1, ps⟩
      else
        let valid := ms.filter (inWindow cutoff)
        if oldestTime ms < cutoff then ⟨acc ++ valid, reqs + 1, ps ++ [ms]⟩
        else if ms.length < batch_size then ⟨acc ++ valid, reqs + 1, ps ++ [ms]⟩
        else fetchGo oracle cutoff fuel (b + 1) (acc ++ valid) (reqs + 1) (ps ++ [ms])

/-- `fetch_all_matches_for_player` for one player, against a remote
source modelled by `oracle`. -/
def fetch_all_matches_for_player (oracle : Nat → ApiResponse) (cutoff : Int) :
    FetchResult :=
  fetchGo oracle cutoff max_batches 0 [] 0 []

/-- `all_steam_ids = [PLAYERS[p] for p in selected_players]`. -/
def rosterIds (selected_players : List String) : List Nat :=
  selected_players.map playerId

/-- One iteration of the player loop of `load_full_year_data`: fetch,
then (when any matches came back) normalize. -/
def playerRows (oracles : String → Nat → ApiResponse) (cutoff : Int)
    (all_steam_ids : List Nat) (player_name : String) : List Record :=
  let ms := (fetch_all_matches_for_player (oracles player_name) cutoff).all_matches
  if ms.isEmpty then []
  else process_matches ms (playerId player_name) player_name all_steam_ids

/-- `load_full_year_data`: iterate the selected players in order,
appending each player's normalized records to the merged table. -/
def load_full_year_data (selected_players : List String)
    (oracles : String → Nat → ApiResponse) (cutoff : Int) : List Record :=
  selected_players.foldl
    (fun all_data name => all_data ++ playerRows oracles cutoff (rosterIds selected_players) name)
    []

/-! Concrete fixtures for witnesses and counterexamples. -/

/-- A participant template: the record-owner account with innocuous stats. -/
def baseOwner : Participant :=
  { steamAccountId := 3336264, isVictory := true, isRadiant := true, imp := 0,
    kills := 0, deaths := 1, assists := 0, level := none, position := none,
    lane := none, hero := none }

def pRound : Participant := { baseOwner with kills := 1, deaths := 3 }

def mRound : RawMatch :=
  { id := 1, startDateTime := 0, durationSeconds := 0, didRadiantWin := true,
    players := [pRound] }

def pZero : Participant := { baseOwner with kills := 5, assists := 3, deaths := 0 }

def mZeroDeaths : RawMatch :=
  { id := 2, startDateTime := 0, durationSeconds := 0, didRadiantWin := true,
    players := [pZero] }

def ownerUnknownLane : Participant := { baseOwner with lane := some "UNKNOWN" }

def pMagnusUnknownLane : Participant :=
  { baseOwner with steamAccountId := 29391237, lane := some "UNKNOWN" }

def mUnknownLane : RawMatch :=
  { id := 3, startDateTime := 0, durationSeconds := 0, didRadiantWin := true,
    players := [ownerUnknownLane, pMagnusUnknownLane] }

def pMagnusNoLane : Participant := { baseOwner with steamAccountId := 29391237 }

def mNoLane : RawMatch :=
  { id := 4, startDateTime := 0, durationSeconds := 0, didRadiantWin := true,
    players := [baseOwner, pMagnusNoLane] }

def ownerSafeLane : Participant := { baseOwner with lane := some "SAFE_LANE" }

def pMagnusSafeLane : Participant :=
  { baseOwner with steamAccountId := 29391237, lane := some "SAFE_LANE" }

def mSafeLane : RawMatch :=
  { id := 5, startDateTime := 0, durationSeconds := 0, didRadiantWin := true,
    players := [ownerSafeLane, pMagnusSafeLane] }

/-- A trivial one-owner match with the given id (timestamp 0). -/
def mkDupMatch (i : Nat) : RawMatch :=
  { id := i, startDateTime := 0, durationSeconds := 0, didRadiantWin := true,
    players := [baseOwner] }

/-- A full page of `batch_size` matches with ids `0..batch_size-1`. -/
def dupPage : List RawMatch := (List.range batch_size).map mkDupMatch

/-- A remote source whose second page repeats the match with id 0 (the
skip-based pagination overlap that occurs when new matches arrive
between two page requests). -/
def dupOracle : String → Nat → ApiResponse :=
  fun _ b => if b = 0 then .ok dupPage else .ok [mkDupMatch 0]

/-- A remote source returning a single short page holding `mRound`. -/
def oneMatchOracle : String → Nat → ApiResponse :=
  fun _ b => if b = 0 then .ok [mRound] else .ok []

/-- A remote source whose first page is full and whose second request
fails with a non-200 status. -/
def failAfterOneOracle : Nat → ApiResponse :=
  fun b => if b = 0 then .ok dupPage else .httpError 500

/-- A one-owner match with the given id whose start timestamp (-5)
predates the cutoff 0. -/
def mOld (i : Nat) : RawMatch :=
  { id := i, startDateTime := -5, durationSeconds := 0, didRadiantWin := true,
    players := [baseOwner] }

/-- A remote source whose first page is full and in-window and whose
second page straddles the cutoff (its only match predates it). -/
def straddleOracle : Nat → ApiResponse :=
  fun b => if b = 0 then .ok dupPage else .ok [mOld 200]

/-! Helper lemmas about the normalizer. -/

theorem processMatch_eq_some (m : RawMatch) (sid : Nat) (nm : String)
    (ros : List Nat) (pd : Participant) (hfind : findOwner m sid = some pd) :
    processMatch m sid nm ros = some (recordOf m pd sid nm ros) := by
  simp [processMatch, hfind]

theorem processMatch_isSome_iff (m : RawMatch) (sid : Nat) (nm : String)
    (ros : List Nat) :
    (processMatch m sid nm ros).isSome = (findOwner m sid).isSome := by
  unfold processMatch
  cases findOwner m sid <;> rfl

theorem mem_process_matches_player_name (ms : List RawMatch) (sid : Nat)
    (nm : String) (ros : List Nat) (r : Record)
    (hr : r ∈ process_matches ms sid nm ros) : r.player_name = nm := by
  unfold process_matches at hr
  rcases List.mem_filterMap.mp hr with ⟨m, _, hm⟩
  unfold processMatch at hm
  cases hfind : findOwner m sid with
  | none => rw [hfind] at hm; exact absurd hm (by simp)
  | some pd =>
    rw [hfind] at hm
    cases hm
    rfl

theorem countP_process_matches_le (ms : List RawMatch) (sid : Nat)
    (nm : String) (ros : List Nat) (mid : Nat) :
    (process_matches ms sid nm ros).countP (fun r => r.match_id = mid) ≤
      ms.countP (fun m => m.id = mid) := by
  induction ms with
  | nil => simp [process_matches]
  | cons m rest ih =>
    unfold process_matches at ih ⊢
    cases hfind : findOwner m sid with
    | none =>
      simp only [List.filterMap_cons, processMatch, hfind, List.countP_cons]
      exact le_trans ih (Nat.le_add_right _ _)
    | some pd =>
      simp only [List.filterMap_cons, processMatch, hfind, List.countP_cons]
      have hid : (recordOf m pd sid nm ros).match_id = m.id := rfl
      simp only [hid]
      exact Nat.add_le_add ih (Nat.le_refl _)

theorem countP_id_le_one_of_nodup (ms : List RawMatch) (mid : Nat)
    (h : (ms.map RawMatch.id).Nodup) :
    ms.countP (fun m => m.id = mid) ≤ 1 := by
  have h1 : (ms.map RawMatch.id).count mid ≤ 1 :=
    List.nodup_iff_count_le_one.mp h mid
  have h2 : (ms.map RawMatch.id).count mid = ms.countP (fun m => m.id = mid) := by
    rw [List.count_eq_countP, List.countP_map]
    apply List.countP_congr
    intro m _
    by_cases h : m.id = mid
    · simp [Function.comp, h]
    · simp [Function.comp, h]
  rw [h2] at h1
  exact h1

/-! Helper lemmas about the aggregator. -/

theorem foldl_append_eq_flatMap {α β : Type} (f : α → List β) :
    ∀ (l : List α) (a : List β),
      l.foldl (fun acc x => acc ++ f x) a = a ++ l.flatMap f
  | [], a => by simp
  | x :: l, a => by
    simp only [List.foldl_cons, List.flatMap_cons]
    rw [foldl_append_eq_flatMap f l (a ++ f x), List.append_assoc]

theorem load_eq_flatMap (sel : List String)
    (oracles : String → Nat → ApiResponse) (cutoff : Int) :
    load_full_year_data sel oracles cutoff =
      sel.flatMap (playerRows oracles cutoff (rosterIds sel)) := by
  unfold load_full_year_data
  rw [foldl_append_eq_flatMap]
  simp

/-! Helper lemmas about the paginated fetcher. -/

theorem fetchGo_matches_spec (o : Nat → ApiResponse) (c : Int) :
    ∀ (fuel b : Nat) (acc : List RawMatch) (reqs : Nat) (ps : List (List RawMatch)),
      acc = ps.flatten.filter (inWindow c) →
      (fetchGo o c fuel b acc reqs ps).all_matches =
        (fetchGo o c fuel b acc reqs ps).pages.flatten.filter (inWindow c) := by
  intro fuel
  induction fuel with
  | zero => intro b acc reqs ps h; simpa [fetchGo] using h
  | succ fuel ih =>
    intro b acc reqs ps h
    cases hres : o b with
    | ok ms =>
      by_cases hemp : ms.isEmpty
      · simpa [fetchGo, hres, hemp] using h
      · by_cases hold : oldestTime ms < c
        · simp [fetchGo, hres, hemp, hold, h, List.filter_append]
        · by_cases hlen : ms.length < batch_size
          · simp [fetchGo, hres, hemp, hold, hlen, h, List.filter_append]
          · have hstep : fetchGo o c (fuel + 1) b acc reqs ps =
                fetchGo o c fuel (b + 1) (acc ++ ms.filter (inWindow c))
                  (reqs + 1) (ps ++ [ms]) := by
              simp [fetchGo, hres, hemp, hold, hlen]
            rw [hstep]
            exact ih (b + 1) _ (reqs + 1) (ps ++ [ms]) (by simp [h, List.filter_append])
    | httpError s => simpa [fetchGo, hres] using h
    | gqlErrors => simpa [fetchGo, hres] using h
    | exn => simpa [fetchGo, hres] using h

theorem fetchGo_pages_cutoff (o : Nat → ApiResponse) (c : Int) :
    ∀ (fuel b : Nat) (acc : List RawMatch) (reqs : Nat) (ps : List (List RawMatch)),
      (∀ p ∈ ps, c ≤ oldestTime p) →
      ∀ p ∈ (fetchGo o c fuel b acc reqs ps).pages.dropLast, c ≤ oldestTime p := by
  intro fuel
  induction fuel with
  | zero =>
    intro b acc reqs ps h p hp
    exact h p ((List.dropLast_sublist _).subset (by simpa [fetchGo] using hp))
  | succ fuel ih =>
    intro b acc reqs ps h p hp
    cases hres : o b with
    | ok ms =>
      by_cases hemp : ms.isEmpty
      · exact h p ((List.dropLast_sublist _).subset (by simpa [fetchGo, hres, hemp] using hp))
      · by_cases hold : oldestTime ms < c
        · have hd : (fetchGo o c (fuel + 1) b acc reqs ps).pages = ps ++ [ms] := by
            simp [fetchGo, hres, hemp, hold]
          rw [hd] at hp
          have hdl : (ps ++ [ms]).dropLast = ps := by simp
          rw [hdl] at hp
          exact h p hp
        · by_cases hlen : ms.length < batch_size
          · have hd : (fetchGo o c (fuel + 1) b acc reqs ps).pages = ps ++ [ms] := by
              simp [fetchGo, hres, hemp, hold, hlen]
            rw [hd] at hp
            have : (ps ++ [ms]).dropLast = ps := by simp
            rw [this] at hp
            exact h p hp
          · have hstep : fetchGo o c (fuel + 1) b acc reqs ps =
                fetchGo o c fuel (b + 1) (acc ++ ms.filter (inWindow c))
                  (reqs + 1) (ps ++ [ms]) := by
              simp [fetchGo, hres, hemp, hold, hlen]
            rw [hstep] at hp
            refine ih (b + 1) _ (reqs + 1) (ps ++ [ms]) ?_ p hp
            intro q hq
            rcases List.mem_append.mp hq with hq | hq
            · exact h q hq
            · rcases List.mem_singleton.mp hq with rfl
              exact Int.not_lt.mp hold
    | httpError s =>
      exact h p ((List.dropLast_sublist _).subset (by simpa [fetchGo, hres] using hp))
    | gqlErrors =>
      exact h p ((List.dropLast_sublist _).subset (by simpa [fetchGo, hres] using hp))
    | exn =>
      exact h p ((List.dropLast_sublist _).subset (by simpa [fetchGo, hres] using hp))

theorem fetchGo_requests_le (o : Nat → ApiResponse) (c : Int) :
    ∀ (fuel b : Nat) (acc : List RawMatch) (reqs : Nat) (ps : List (List RawMatch)),
      (fetchGo o c fuel b acc reqs ps).requests ≤ reqs + fuel := by
  intro fuel
  induction fuel with
  | zero => intro b acc reqs ps; simp [fetchGo]
  | succ fuel ih =>
    intro b acc reqs ps
    cases hres : o b with
    | ok ms =>
      by_cases hemp : ms.isEmpty
      · simp [fetchGo, hres, hemp]
      · by_cases hold : oldestTime ms < c
        · simp [fetchGo, hres, hemp, hold]
        · by_cases hlen : ms.length < batch_size
          · simp [fetchGo, hres, hemp, hold, hlen]
          · have hstep : fetchGo o c (fuel + 1) b acc reqs ps =
                fetchGo o c fuel (b + 1) (acc ++ ms.filter (inWindow c))
                  (reqs + 1) (ps ++ [ms]) := by
              simp [fetchGo, hres, hemp, hold, hlen]
            rw [hstep]
            have := ih (b + 1) (acc ++ ms.filter (inWindow c)) (reqs + 1) (ps ++ [ms])
            omega
    | httpError s => simp [fetchGo, hres]
    | gqlErrors => simp [fetchGo, hres]
    | exn => simp [fetchGo, hres]

theorem fetchGo_requests_eq_pages (o : Nat → ApiResponse) (c : Int) :
    ∀ (fuel b : Nat) (acc : List RawMatch) (reqs : Nat) (ps : List (List RawMatch)),
      reqs = ps.length →
      (∀ p ∈ ps, c ≤ oldestTime p) →
      (∃ p ∈ (fetchGo o c fuel b acc reqs ps).pages, oldestTime p < c) →
      (fetchGo o c fuel b acc reqs ps).requests =
        (fetchGo o c fuel b acc reqs ps).pages.length := by
  intro fuel
  induction fuel with
  | zero =>
    intro b acc reqs ps hreq hgood hbad
    rcases hbad with ⟨p, hp, hplt⟩
    simp only [fetchGo] at hp
    exact absurd hplt (Int.not_lt.mpr (hgood p hp))
  | succ fuel ih =>
    intro b acc reqs ps hreq hgood hbad
    cases hres : o b with
    | ok ms =>
      by_cases hemp : ms.isEmpty
      · rcases hbad with ⟨p, hp, hplt⟩
        simp [fetchGo, hres, hemp] at hp
        exact absurd hplt (Int.not_lt.mpr (hgood p hp))
      · by_cases hold : oldestTime ms < c
        · simp [fetchGo, hres, hemp, hold, hreq]
        · by_cases hlen : ms.length < batch_size
          · simp [fetchGo, hres, hemp, hold, hlen, hreq]
          · have hstep : fetchGo o c (fuel + 1) b acc reqs ps =
                fetchGo o c fuel (b + 1) (acc ++ ms.filter (inWindow c))
                  (reqs + 1) (ps ++ [ms]) := by
              simp [fetchGo, hres, hemp, hold, hlen]
            rw [hstep] at hbad ⊢
            refine ih (b + 1) _ (reqs + 1) (ps ++ [ms]) (by simp [hreq]) ?_ hbad
            intro q hq
            rcases List.mem_append.mp hq with hq | hq
            · exact hgood q hq
            · rcases List.mem_singleton.mp hq with rfl
              exact Int.not_lt.mp hold
    | httpError s =>
      rcases hbad with ⟨p, hp, hplt⟩
      simp only [fetchGo, hres] at hp
      exact absurd hplt (Int.not_lt.mpr (hgood p hp))
    | gqlErrors =>
      rcases hbad with ⟨p, hp, hplt⟩
      simp only [fetchGo, hres] at hp
      exact absurd hplt (Int.not_lt.mpr (hgood p hp))
    | exn =>
      rcases hbad with ⟨p, hp, hplt⟩
      simp only [fetchGo, hres] at hp
      exact absurd hplt (Int.not_lt.mpr (hgood p hp))

theorem fetchGo_stop_at_failure (o : Nat → ApiResponse) (c : Int) :
    ∀ (fuel b : Nat) (acc : List RawMatch) (reqs : Nat) (ps : List (List RawMatch))
      (k : Nat), b ≤ k → (o k).isFailure = true →
      (fetchGo o c fuel b acc reqs ps).requests ≤ reqs + (k + 1 - b) := by
  intro fuel
  induction fuel with
  | zero => intro b acc reqs ps k hbk hfail; simp [fetchGo]
  | succ fuel ih =>
    intro b acc reqs ps k hbk hfail
    cases hres : o b with
    | ok ms =>
      have hbk' : b < k := by
        rcases Nat.lt_or_ge b k with h | h
        · exact h
        · have hk : k = b := Nat.le_antisymm h hbk
          rw [hk, hres] at hfail
          simp [ApiResponse.isFailure] at hfail
      by_cases hemp : ms.isEmpty
      · simp only [fetchGo, hres]
        rw [if_pos hemp]
        simp only
        omega
      · by_cases hold : oldestTime ms < c
        · have hd : (fetchGo o c (fuel + 1) b acc reqs ps).requests = reqs + 1 := by
            simp [fetchGo, hres, hemp, hold]
          omega
        · by_cases hlen : ms.length < batch_size
          · have hd : (fetchGo o c (fuel + 1) b acc reqs ps).requests = reqs + 1 := by
              simp [fetchGo, hres, hemp, hold, hlen]
            omega
          · have hstep : fetchGo o c (fuel + 1) b acc reqs ps =
                fetchGo o c fuel (b + 1) (acc ++ ms.filter (inWindow c))
                  (reqs + 1) (ps ++ [ms]) := by
              simp [fetchGo, hres, hemp, hold, hlen]
            rw [hstep]
            have := ih (b + 1) (acc ++ ms.filter (inWindow c)) (reqs + 1) (ps ++ [ms]) k hbk' hfail
            omega
    | httpError s =>
      have hd : (fetchGo o c (fuel + 1) b acc reqs ps).requests = reqs + 1 := by
        simp [fetchGo, hres]
      omega
    | gqlErrors =>
      have hd : (fetchGo o c (fuel + 1) b acc reqs ps).requests = reqs + 1 := by
        simp [fetchGo, hres]
      omega
    | exn =>
      have hd : (fetchGo o c (fuel + 1) b acc reqs ps).requests = reqs + 1 := by
        simp [fetchGo, hres]
      omega

theorem fetchGo_ok_prefix (o : Nat → ApiResponse) (c : Int) (pgs : Nat → List RawMatch) :
    ∀ (n fuel b : Nat) (acc : List RawMatch) (reqs : Nat) (ps : List (List RawMatch)),
      n < fuel →
      (∀ j, j < n → o (b + j) = .ok (pgs (b + j)) ∧ pgs (b + j) ≠ [] ∧
        (pgs (b + j)).length = batch_size ∧ c ≤ oldestTime (pgs (b + j))) →
      (o (b + n)).isFailure = true →
      fetchGo o c fuel b acc reqs ps =
        ⟨acc ++ ((List.range' b n).map pgs).flatten.filter (inWindow c),
          reqs + n + 1, ps ++ (List.range' b n).map pgs⟩ := by
  intro n
  induction n with
  | zero =>
    intro fuel b acc reqs ps hn hpre hfail
    rw [Nat.add_zero] at hfail
    cases fuel with
    | zero => omega
    | succ fuel =>
      cases hres : o b with
      | ok ms => rw [hres] at hfail; simp [ApiResponse.isFailure] at hfail
      | httpError s => simp [fetchGo, hres]
      | gqlErrors => simp [fetchGo, hres]
      | exn => simp [fetchGo, hres]
  | succ n ih =>
    intro fuel b acc reqs ps hn hpre hfail
    cases fuel with
    | zero => omega
    | succ fuel =>
      have h0 := hpre 0 (Nat.succ_pos n)
      rw [Nat.add_zero] at h0
      have hemp : (pgs b).isEmpty = false := by
        cases hpg : pgs b with
        | nil => exact absurd hpg h0.2.1
        | cons x l => simp
      have hold : ¬ (oldestTime (pgs b) < c) := Int.not_lt.mpr h0.2.2.2
      have hlen : ¬ ((pgs b).length < batch_size) := by
        rw [h0.2.2.1]
        exact Nat.lt_irrefl _
      have hstep : fetchGo o c (fuel + 1) b acc reqs ps =
          fetchGo o c fuel (b + 1) (acc ++ (pgs b).filter (inWindow c))
            (reqs + 1) (ps ++ [pgs b]) := by
        simp [fetchGo, h0.1, hemp, hold, hlen]
      rw [hstep]
      have hpre' : ∀ j, j < n → o ((b + 1) + j) = .ok (pgs ((b + 1) + j)) ∧
          pgs ((b + 1) + j) ≠ [] ∧ (pgs ((b + 1) + j)).length = batch_size ∧
          c ≤ oldestTime (pgs ((b + 1) + j)) := by
        intro j hj
        have e : b + 1 + j = b + (j + 1) := by omega
        rw [e]
        exact hpre (j + 1) (by omega)
      have hfail' : (o ((b + 1) + n)).isFailure = true := by
        have e : b + 1 + n = b + (n + 1) := by omega
        rw [e]
        exact hfail
      rw [ih fuel (b + 1) (acc ++ (pgs b).filter (inWindow c)) (reqs + 1)
        (ps ++ [pgs b]) (by omega) hpre' hfail']
      have hr : List.range' b (n + 1) = b :: List.range' (b + 1) n := List.range'_succ b n 1
      rw [hr]
      simp [List.filter_append, List.append_assoc]
      omega

theorem process_matches_match_ids (ms : List RawMatch) (sid : Nat)
    (nm : String) (ros : List Nat) :
    (process_matches ms sid nm ros).map Record.match_id =
      (ms.filter (fun m => (findOwner m sid).isSome)).map RawMatch.id := by
  induction ms with
  | nil => simp [process_matches]
  | cons m rest ih =>
    unfold process_matches at ih ⊢
    cases hfind : findOwner m sid with
    | none =>
      have hh : processMatch m sid nm ros = none := by simp [processMatch, hfind]
      simp only [List.filterMap_cons, hh, List.filter_cons, hfind, Option.isSome_none,
        Bool.false_eq_true, if_false]
      exact ih
    | some pd =>
      have hh : processMatch m sid nm ros = some (recordOf m pd sid nm ros) :=
        processMatch_eq_some m sid nm ros pd hfind
      simp only [List.filterMap_cons, hh, List.filter_cons, hfind, Option.isSome_some,
        if_true, List.map_cons]
      rw [ih]
      rfl

theorem joinNames_eq_none_iff (names : List String) :
    joinNames names = none ↔ names = [] := by
  unfold joinNames
  by_cases h : names.isEmpty
  · simp [h, List.isEmpty_iff.mp h]
  · simp only [h, if_false, Bool.false_eq_true]
    constructor
    · intro hc; exact absurd hc (by simp)
    · intro hc; rw [hc] at h; simp at h

theorem playerRows_player_name (oracles : String → Nat → ApiResponse) (c : Int)
    (ids : List Nat) (nm : String) (r : Record)
    (hr : r ∈ playerRows oracles c ids nm) : r.player_name = nm := by
  unfold playerRows at hr
  by_cases hemp : (fetch_all_matches_for_player (oracles nm) c).all_matches.isEmpty
  · rw [if_pos hemp] at hr; exact absurd hr (List.not_mem_nil r)
  · rw [if_neg hemp] at hr
    exact mem_process_matches_player_name _ _ _ _ r hr

theorem countP_playerRows_le_one (oracles : String → Nat → ApiResponse) (c : Int)
    (ids : List Nat) (nm : String) (mid : Nat)
    (h : (((fetch_all_matches_for_player (oracles nm) c).all_matches).map RawMatch.id).Nodup) :
    (playerRows oracles c ids nm).countP (fun r => r.match_id = mid) ≤ 1 := by
  unfold playerRows
  by_cases hemp : (fetch_all_matches_for_player (oracles nm) c).all_matches.isEmpty
  · rw [if_pos hemp]; simp
  · rw [if_neg hemp]
    exact le_trans (countP_process_matches_le _ _ _ _ mid)
      (countP_id_le_one_of_nodup _ mid h)


/-! Claims. -/

/-- C1 counterexample: the claim "the kda field equals
(kills + assists) / max(deaths, 1)" is false as stated, because the code
rounds the quotient to two decimal places.  For kills=1, assists=0,
deaths=3 the stored kda is 0.33, which differs from 1/3. -/
theorem C1_counterexample :
    (processMatch mRound 3336264 "Andreas" []).map Record.kda = some (33/100) ∧
    (33/100 : ℚ) ≠ (((1 : ℕ) : ℚ) + ((0 : ℕ) : ℚ)) / ((max 3 1 : ℕ) : ℚ) := by
  constructor
  · have h : processMatch mRound 3336264 "Andreas" [] =
        some (recordOf mRound pRound 3336264 "Andreas" []) := rfl
    rw [h, Option.map_some']
    norm_num [recordOf, pRound, baseOwner, pyRound, pyRoundInt, Nat.max_def]
  · norm_num [Nat.max_def]

/-- C1 (amended): for every normalized record, the kda field equals
(kills + assists) / max(deaths, 1) rounded to two decimal places; the
denominator is positive (no division by zero), and for deaths = 0 it is
exactly 1. -/
theorem C1_amended (m : RawMatch) (sid : Nat) (nm : String) (ros : List Nat)
    (pd : Participant) (hfind : findOwner m sid = some pd) :
    (processMatch m sid nm ros).map Record.kda =
      some (pyRound (((pd.kills : ℚ) + (pd.assists : ℚ)) / ((max pd.deaths 1 : ℕ) : ℚ)) 2)
    ∧ (0 : ℚ) < ((max pd.deaths 1 : ℕ) : ℚ)
    ∧ (pd.deaths = 0 →
        (processMatch m sid nm ros).map Record.kda =
          some (pyRound (((pd.kills : ℚ) + (pd.assists : ℚ)) / ((1 : ℕ) : ℚ)) 2)) := by
  have h : processMatch m sid nm ros = some (recordOf m pd sid nm ros) :=
    processMatch_eq_some m sid nm ros pd hfind
  refine ⟨by rw [h]; rfl, ?_, ?_⟩
  · have h1 : 0 < max pd.deaths 1 := Nat.lt_of_lt_of_le Nat.zero_lt_one (Nat.le_max_right _ _)
    exact_mod_cast h1
  · intro hdeaths
    rw [h, Option.map_some']
    have hk : (recordOf m pd sid nm ros).kda =
        pyRound (((pd.kills : ℚ) + (pd.assists : ℚ)) / ((max pd.deaths 1 : ℕ) : ℚ)) 2 := rfl
    rw [hk, hdeaths]
    simp

/-- C1 witness: kills=5, assists=3, deaths=0 yields a denominator of
exactly 1 and kda 8. -/
theorem C1_witness :
    (processMatch mZeroDeaths 3336264 "Andreas" []).map Record.kda =
      some (pyRound (((pZero.kills : ℚ) + (pZero.assists : ℚ)) / ((1 : ℕ) : ℚ)) 2) ∧
    pyRound (((pZero.kills : ℚ) + (pZero.assists : ℚ)) / ((1 : ℕ) : ℚ)) 2 = 8 := by
  constructor
  · exact (C1_amended mZeroDeaths 3336264 "Andreas" [] pZero rfl).2.2 rfl
  · norm_num [pZero, baseOwner, pyRound, pyRoundInt]

/-- C2 counterexample: the claim "a teammate is listed as a lane partner
only if the owner's lane is a known (non-unknown) value" is false: an
owner lane value that is present but unmapped (for example the literal
"UNKNOWN" enum string) maps to the label "Unknown", yet a roster
teammate with the same lane value is still listed as a lane partner. -/
theorem C2_counterexample :
    (processMatch mUnknownLane 3336264 "Andreas" [3336264, 29391237]).map
      (fun r => (r.lane, r.lane_partner)) = some ("Unknown", some "Magnus") := by
  decide

/-- C2 (amended): a roster teammate is listed as a lane partner only if
its lane equals the owner's lane and the owner's lane field is present
(not missing); a missing owner lane yields no lane partner, but a
present lane value that maps to the "Unknown" label can still yield
lane partners. -/
theorem C2_amended (m : RawMatch) (sid : Nat) (nm : String) (ros : List Nat)
    (pd : Participant) (hfind : findOwner m sid = some pd) :
    (pd.lane = none → (processMatch m sid nm ros).map Record.lane_partner = some none)
    ∧ (∀ t ∈ sameLaneTeammates m pd sid ros, t.lane = pd.lane)
    ∧ (∀ t ∈ sameLaneTeammates m pd sid ros, pd.lane ≠ none) := by
  have h : processMatch m sid nm ros = some (recordOf m pd sid nm ros) :=
    processMatch_eq_some m sid nm ros pd hfind
  refine ⟨?_, ?_, ?_⟩
  · intro hnone
    have hempty : sameLaneTeammates m pd sid ros = [] := by
      unfold sameLaneTeammates
      apply List.filter_eq_nil_iff.mpr
      intro t ht
      simp [hnone]
    rw [h, Option.map_some']
    have : (recordOf m pd sid nm ros).lane_partner =
        joinNames (lanePartnerNames m pd sid ros) := rfl
    rw [this]
    unfold lanePartnerNames
    rw [hempty]
    rfl
  · intro t ht
    have := List.mem_filter.mp ht
    have hcond := this.2
    simp only [decide_eq_true_eq] at hcond
    exact hcond.1
  · intro t ht
    have := List.mem_filter.mp ht
    have hcond := this.2
    simp only [decide_eq_true_eq] at hcond
    exact hcond.2

/-- C2 witness: an owner with a missing lane field gets no lane partner
even with a roster teammate on the same side. -/
theorem C2_witness :
    (processMatch mNoLane 3336264 "Andreas" [3336264, 29391237]).map
      Record.lane_partner = some none :=
  (C2_amended mNoLane 3336264 "Andreas" [3336264, 29391237] baseOwner rfl).1 rfl

/-- C3: the is_party flag of a normalized record is true iff at least
one other roster member (a participant with a different account id whose
id is in the roster set) shares the owner's team-side boolean. -/
theorem C3_is_party_iff (m : RawMatch) (sid : Nat) (nm : String) (ros : List Nat)
    (pd : Participant) (hfind : findOwner m sid = some pd) :
    ((processMatch m sid nm ros).map Record.is_party = some true ↔
      ∃ p ∈ m.players, p.isRadiant = pd.isRadiant ∧ p.steamAccountId ≠ sid ∧
        p.steamAccountId ∈ ros) := by
  have h : processMatch m sid nm ros = some (recordOf m pd sid nm ros) :=
    processMatch_eq_some m sid nm ros pd hfind
  rw [h, Option.map_some']
  have hp : (recordOf m pd sid nm ros).is_party =
      decide (0 < (rosterTeammates m pd sid ros).length) := rfl
  rw [hp]
  simp only [Option.some.injEq, decide_eq_true_eq]
  rw [List.length_pos_iff_exists_mem]
  unfold rosterTeammates
  constructor
  · rintro ⟨t, ht⟩
    have h2 := List.mem_filter.mp ht
    have h3 := List.mem_filter.mp h2.1
    refine ⟨t, h3.1, ?_, ?_, ?_⟩
    · exact (decide_eq_true_eq.mp h3.2).1
    · exact (decide_eq_true_eq.mp h3.2).2
    · exact decide_eq_true_eq.mp h2.2
  · rintro ⟨p, hmem, hrad, hne, hros⟩
    refine ⟨p, List.mem_filter.mpr ⟨List.mem_filter.mpr ⟨hmem, ?_⟩, ?_⟩⟩
    · exact decide_eq_true_eq.mpr ⟨hrad, hne⟩
    · exact decide_eq_true_eq.mpr hros

/-- C3 witness: in a match where a roster teammate shares the owner's
side, is_party is true. -/
theorem C3_witness :
    (processMatch mSafeLane 3336264 "Andreas" [3336264, 29391237]).map
      Record.is_party = some true :=
  (C3_is_party_iff mSafeLane 3336264 "Andreas" [3336264, 29391237]
      ownerSafeLane rfl).mpr
    ⟨pMagnusSafeLane, by decide, by decide, by decide, by decide⟩

/-- C9: the emitted deaths field equals the participant's raw deaths
count; the clamp used inside the KDA denominator never alters the stored
deaths value. -/
theorem C9_deaths_unchanged (m : RawMatch) (sid : Nat) (nm : String)
    (ros : List Nat) (pd : Participant) (hfind : findOwner m sid = some pd) :
    (processMatch m sid nm ros).map Record.deaths = some pd.deaths := by
  rw [processMatch_eq_some m sid nm ros pd hfind]
  rfl

/-- C9 witness: with zero raw deaths the stored deaths field is 0 (the
KDA clamp to 1 is not reflected in the stored value). -/
theorem C9_witness :
    (processMatch mZeroDeaths 3336264 "Andreas" []).map Record.deaths = some 0 :=
  C9_deaths_unchanged mZeroDeaths 3336264 "Andreas" [] pZero rfl

/-- C10: every lane-partner name is also a party-with name, and a
present lane_partner field forces is_party to be true and party_with to
be present. -/
theorem C10_lane_partner_subset (m : RawMatch) (sid : Nat) (nm : String)
    (ros : List Nat) (pd : Participant) (hfind : findOwner m sid = some pd) :
    (∀ s ∈ lanePartnerNames m pd sid ros, s ∈ friendNames m pd sid ros)
    ∧ ((processMatch m sid nm ros).bind Record.lane_partner ≠ none →
        (processMatch m sid nm ros).map Record.is_party = some true ∧
        (processMatch m sid nm ros).bind Record.party_with ≠ none) := by
  have h : processMatch m sid nm ros = some (recordOf m pd sid nm ros) :=
    processMatch_eq_some m sid nm ros pd hfind
  constructor
  · intro s hs
    unfold lanePartnerNames at hs
    rcases List.mem_map.mp hs with ⟨t, ht, hts⟩
    unfold sameLaneTeammates at ht
    have ht2 := (List.mem_filter.mp ht).1
    exact List.mem_map.mpr ⟨t, ht2, hts⟩
  · intro hlp
    rw [h] at hlp ⊢
    simp only [Option.some_bind] at hlp
    have hlp2 : (recordOf m pd sid nm ros).lane_partner =
        joinNames (lanePartnerNames m pd sid ros) := rfl
    rw [hlp2] at hlp
    have hnames : lanePartnerNames m pd sid ros ≠ [] := by
      intro hc
      exact hlp ((joinNames_eq_none_iff _).mpr hc)
    have hlane : sameLaneTeammates m pd sid ros ≠ [] := by
      intro hc
      apply hnames
      unfold lanePartnerNames
      rw [hc]
      rfl
    have hteam : rosterTeammates m pd sid ros ≠ [] := by
      intro hc
      apply hlane
      unfold sameLaneTeammates
      rw [hc]
      rfl
    constructor
    · rw [Option.map_some']
      have hp : (recordOf m pd sid nm ros).is_party =
          decide (0 < (rosterTeammates m pd sid ros).length) := rfl
      rw [hp]
      simp only [Option.some.injEq, decide_eq_true_eq]
      exact List.length_pos.mpr hteam
    · simp only [Option.some_bind]
      have hpw : (recordOf m pd sid nm ros).party_with =
          joinNames (friendNames m pd sid ros) := rfl
      rw [hpw]
      intro hc
      have : friendNames m pd sid ros = [] := (joinNames_eq_none_iff _).mp hc
      apply hteam
      unfold friendNames at this
      exact List.map_eq_nil_iff.mp this

/-- C10 witness: a concrete match with a same-lane roster teammate has
the lane-partner name among the party names, is_party true and
party_with present. -/
theorem C10_witness :
    ("Magnus" ∈ friendNames mSafeLane ownerSafeLane 3336264 [3336264, 29391237])
    ∧ (processMatch mSafeLane 3336264 "Andreas" [3336264, 29391237]).map
        Record.is_party = some true
    ∧ (processMatch mSafeLane 3336264 "Andreas" [3336264, 29391237]).bind
        Record.party_with ≠ none := by
  have h := C10_lane_partner_subset mSafeLane 3336264 "Andreas"
    [3336264, 29391237] ownerSafeLane rfl
  refine ⟨h.1 "Magnus" (by decide), (h.2 (by decide)).1, (h.2 (by decide)).2⟩

/-- C4: the fetcher's result is exactly the fetched matches whose start
timestamp is at or after the cutoff, in their returned order; every
non-final fetched page has its oldest match at or after the cutoff (so
pagination halts as soon as a page's oldest match predates the cutoff),
and when a fetched page's oldest match predates the cutoff no further
request is made after it. -/
theorem C4_fetch_window (o : Nat → ApiResponse) (c : Int) :
    (fetch_all_matches_for_player o c).all_matches =
      (fetch_all_matches_for_player o c).pages.flatten.filter (inWindow c)
    ∧ (∀ p ∈ (fetch_all_matches_for_player o c).pages.dropLast, c ≤ oldestTime p)
    ∧ ((∃ p ∈ (fetch_all_matches_for_player o c).pages, oldestTime p < c) →
        (fetch_all_matches_for_player o c).requests =
          (fetch_all_matches_for_player o c).pages.length) := by
  unfold fetch_all_matches_for_player
  refine ⟨?_, ?_, ?_⟩
  · exact fetchGo_matches_spec o c max_batches 0 [] 0 [] (by simp)
  · exact fetchGo_pages_cutoff o c max_batches 0 [] 0 [] (by simp)
  · exact fetchGo_requests_eq_pages o c max_batches 0 [] 0 [] (by simp) (by simp)

set_option maxRecDepth 40000 in
/-- C4 witness: against a source whose first page is full and in-window
and whose second page's oldest match predates the cutoff, the returned
matches are the filtered flattening of the fetched pages, the non-final
page is in-window, and exactly as many requests as pages were issued. -/
theorem C4_witness :
    ((fetch_all_matches_for_player straddleOracle 0).all_matches =
      (fetch_all_matches_for_player straddleOracle 0).pages.flatten.filter
        (inWindow 0))
    ∧ 0 ≤ oldestTime dupPage
    ∧ (fetch_all_matches_for_player straddleOracle 0).requests =
        (fetch_all_matches_for_player straddleOracle 0).pages.length := by
  have h := C4_fetch_window straddleOracle 0
  refine ⟨h.1, h.2.1 dupPage (by decide), h.2.2 ⟨[mOld 200], by decide, by decide⟩⟩

/-- C6: the fetch loop always terminates, issuing at most
max_batches = 5 page requests, so at most batch_size * max_batches = 500
raw matches are ever requested for one player in one run. -/
theorem C6_bounded_requests (o : Nat → ApiResponse) (c : Int) :
    (fetch_all_matches_for_player o c).requests ≤ max_batches
    ∧ max_batches = 5 ∧ batch_size = 100
    ∧ batch_size * (fetch_all_matches_for_player o c).requests ≤ 500 := by
  have h : (fetch_all_matches_for_player o c).requests ≤ max_batches := by
    unfold fetch_all_matches_for_player
    have := fetchGo_requests_le o c max_batches 0 [] 0 []
    simpa using this
  refine ⟨h, rfl, rfl, ?_⟩
  calc batch_size * (fetch_all_matches_for_player o c).requests
      ≤ batch_size * max_batches := Nat.mul_le_mul_left _ h
    _ = 500 := rfl

/-- C5: a non-success status, an error payload, or a transport exception
at page k terminates fetching immediately (exactly k+1 requests, no
retry) and returns the matches accumulated from the k earlier successful
pages; and one player's rows always reach the merged table regardless of
the other players' outcomes, so no player's failure aborts the run. -/
theorem C5_failure_semantics :
    (∀ (o : Nat → ApiResponse) (c : Int) (pgs : Nat → List RawMatch) (k : Nat),
      k < max_batches →
      (∀ j, j < k → o j = .ok (pgs j) ∧ pgs j ≠ [] ∧ (pgs j).length = batch_size ∧
        c ≤ oldestTime (pgs j)) →
      (o k).isFailure = true →
      (fetch_all_matches_for_player o c).all_matches =
          ((List.range k).map pgs).flatten.filter (inWindow c) ∧
        (fetch_all_matches_for_player o c).requests = k + 1)
    ∧ (∀ (sel : List String) (oracles : String → Nat → ApiResponse) (c : Int)
        (nm : String) (r : Record), nm ∈ sel →
        r ∈ playerRows oracles c (rosterIds sel) nm →
        r ∈ load_full_year_data sel oracles c) := by
  constructor
  · intro o c pgs k hk hpre hfail
    unfold fetch_all_matches_for_player
    have hpre' : ∀ j, j < k → o (0 + j) = .ok (pgs (0 + j)) ∧ pgs (0 + j) ≠ [] ∧
        (pgs (0 + j)).length = batch_size ∧ c ≤ oldestTime (pgs (0 + j)) := by
      intro j hj
      simpa using hpre j hj
    have hfail' : (o (0 + k)).isFailure = true := by simpa using hfail
    have h := fetchGo_ok_prefix o c pgs k max_batches 0 [] 0 [] hk hpre' hfail'
    rw [h]
    constructor
    · simp [List.range_eq_range']
    · simp
  · intro sel oracles c nm r hnm hr
    rw [load_eq_flatMap]
    exact List.mem_flatMap.mpr ⟨nm, hnm, hr⟩

set_option maxRecDepth 40000 in
/-- C5 witness: with a full in-window first page and a non-200 second
response, the fetcher makes exactly two requests and returns the first
page's matches; and a player's rows reach the merged table. -/
theorem C5_witness :
    ((fetch_all_matches_for_player failAfterOneOracle 0).all_matches =
        ((List.range 1).map (fun _ => dupPage)).flatten.filter (inWindow 0) ∧
      (fetch_all_matches_for_player failAfterOneOracle 0).requests = 1 + 1)
    ∧ recordOf mRound pRound 3336264 "Andreas" (rosterIds ["Andreas"]) ∈
        load_full_year_data ["Andreas"] oneMatchOracle 0 := by
  constructor
  · refine C5_failure_semantics.1 failAfterOneOracle 0 (fun _ => dupPage) 1
      (by decide) ?_ (by decide)
    intro j hj
    have hj0 : j = 0 := by omega
    subst hj0
    exact ⟨rfl, by decide, by decide, by decide⟩
  · refine C5_failure_semantics.2 ["Andreas"] oneMatchOracle 0 "Andreas"
      (recordOf mRound pRound 3336264 "Andreas" (rosterIds ["Andreas"]))
      (by simp) ?_
    exact List.mem_singleton.mpr rfl

/-- C7 helper: with per-player duplicate-free fetched match ids and a
duplicate-free name list, each (name, match id) pair occurs at most once
in the concatenation of the per-player row blocks. -/
theorem countP_rows_flatMap_le_one (oracles : String → Nat → ApiResponse)
    (c : Int) (ids : List Nat) :
    ∀ (names : List String), names.Nodup →
      (∀ nm ∈ names,
        (((fetch_all_matches_for_player (oracles nm) c).all_matches).map
          RawMatch.id).Nodup) →
      ∀ (nm : String) (mid : Nat),
        ((names.flatMap (playerRows oracles c ids)).countP
          (fun r => r.player_name = nm ∧ r.match_id = mid)) ≤ 1 := by
  intro names
  induction names with
  | nil => intro _ _ nm mid; simp
  | cons p rest ih =>
    intro hnodup hids nm mid
    rw [List.flatMap_cons, List.countP_append]
    by_cases hnp : nm = p
    · subst hnp
      have hseg : (playerRows oracles c ids nm).countP
          (fun r => r.player_name = nm ∧ r.match_id = mid) ≤ 1 := by
        refine le_trans (List.countP_mono_left ?_)
          (countP_playerRows_le_one oracles c ids nm mid
            (hids nm (List.mem_cons_self _ _)))
        intro r hr hcond
        simp only [decide_eq_true_eq] at hcond ⊢
        exact hcond.2
      have hrest : ((rest.flatMap (playerRows oracles c ids)).countP
          (fun r => r.player_name = nm ∧ r.match_id = mid)) = 0 := by
        apply List.countP_eq_zero.mpr
        intro r hr
        rcases List.mem_flatMap.mp hr with ⟨q, hq, hrq⟩
        have hname := playerRows_player_name oracles c ids q r hrq
        have hqn : q ≠ nm := by
          intro hc
          subst hc
          exact (List.nodup_cons.mp hnodup).1 hq
        simp only [decide_eq_true_eq, not_and]
        intro hc _
        exact hqn (hname.symm.trans hc)
      omega
    · have hseg : (playerRows oracles c ids p).countP
          (fun r => r.player_name = nm ∧ r.match_id = mid) = 0 := by
        apply List.countP_eq_zero.mpr
        intro r hr
        have hname := playerRows_player_name oracles c ids p r hr
        simp only [decide_eq_true_eq, not_and]
        intro hc _
        exact hnp (hc.symm.trans hname)
      have hrest := ih (List.nodup_cons.mp hnodup).2
        (fun q hq => hids q (List.mem_cons_of_mem p hq)) nm mid
      omega

set_option maxRecDepth 40000 in
/-- C7 counterexample: the claim "each roster player appears at most
once per match id" is false as stated: the code never deduplicates match
ids, so when the paginated source repeats a match across two pages (the
standard skip/take drift when new matches arrive between requests) the
same (player, match id) pair appears twice in the merged table. -/
theorem C7_counterexample :
    (load_full_year_data ["Andreas"] dupOracle 0).countP
      (fun r => r.player_name = "Andreas" ∧ r.match_id = 0) = 2 := by
  decide

/-- C7 (amended): provided the fetched match list of each selected
player carries pairwise-distinct match ids (the remote source never
returns the same match twice within a run) and the selected names are
distinct, each roster player appears at most once per match id in the
merged table, while one match id may appear once per participating
player. -/
theorem C7_amended (sel : List String) (oracles : String → Nat → ApiResponse)
    (c : Int) (hsel : sel.Nodup)
    (hids : ∀ nm ∈ sel,
      (((fetch_all_matches_for_player (oracles nm) c).all_matches).map
        RawMatch.id).Nodup)
    (nm : String) (mid : Nat) :
    (load_full_year_data sel oracles c).countP
      (fun r => r.player_name = nm ∧ r.match_id = mid) ≤ 1 := by
  rw [load_eq_flatMap]
  exact countP_rows_flatMap_le_one oracles c (rosterIds sel) sel hsel hids nm mid

/-- C7 witness: with a source returning one match once, the (player,
match id) pair occurs at most once. -/
theorem C7_witness :
    (load_full_year_data ["Andreas"] oneMatchOracle 0).countP
      (fun r => r.player_name = "Andreas" ∧ r.match_id = 1) ≤ 1 :=
  C7_amended ["Andreas"] oneMatchOracle 0 (by decide) (by decide) "Andreas" 1

/-- C8: the merged table is exactly the concatenation of the per-player
row blocks in roster-iteration order (no cross-player interleaving),
every row in a player's block carries that player's name, and within a
block the match ids follow the order the fetcher returned the matches. -/
theorem C8_row_order (sel : List String) (oracles : String → Nat → ApiResponse)
    (c : Int) :
    load_full_year_data sel oracles c =
      sel.flatMap (playerRows oracles c (rosterIds sel))
    ∧ (∀ nm ∈ sel, ∀ r ∈ playerRows oracles c (rosterIds sel) nm,
        r.player_name = nm)
    ∧ (∀ nm : String,
        (playerRows oracles c (rosterIds sel) nm).map Record.match_id =
          (((fetch_all_matches_for_player (oracles nm) c).all_matches).filter
            (fun m => (findOwner m (playerId nm)).isSome)).map RawMatch.id) := by
  refine ⟨load_eq_flatMap sel oracles c, ?_, ?_⟩
  · intro nm _ r hr
    exact playerRows_player_name oracles c (rosterIds sel) nm r hr
  · intro nm
    unfold playerRows
    by_cases hemp : (fetch_all_matches_for_player (oracles nm) c).all_matches.isEmpty
    · rw [if_pos hemp]
      have he : (fetch_all_matches_for_player (oracles nm) c).all_matches = [] :=
        List.isEmpty_iff.mp hemp
      rw [he]
      rfl
    · rw [if_neg hemp]
      exact process_matches_match_ids _ _ _ _

/-- C8 witness: with a one-player roster and a one-match source, the
merged table equals the single player block, the block's row carries the
player's name, and the block's match ids are the fetched ids. -/
theorem C8_witness :
    load_full_year_data ["Andreas"] oneMatchOracle 0 =
      ["Andreas"].flatMap (playerRows oneMatchOracle 0 (rosterIds ["Andreas"]))
    ∧ (recordOf mRound pRound 3336264 "Andreas"
        (rosterIds ["Andreas"])).player_name = "Andreas"
    ∧ (playerRows oneMatchOracle 0 (rosterIds ["Andreas"]) "Andreas").map
        Record.match_id = [1] := by
  have h := C8_row_order ["Andreas"] oneMatchOracle 0
  refine ⟨h.1, ?_, ?_⟩
  · exact h.2.1 "Andreas" (by simp)
      (recordOf mRound pRound 3336264 "Andreas" (rosterIds ["Andreas"]))
      (List.mem_singleton.mpr rfl)
  · rw [h.2.2 "Andreas"]
    decide
